import Mathlib

/-!
Verification of the rubberduck multi-tenant LLM reverse proxy.

This file shallowly embeds the parts of the code base that the checked
properties talk about:

* `cache_system.py` (`CacheManager.generate_cache_key`,
  `CacheManager.get_cached_response`, `CacheManager.store_response`);
* `src/rubberduck/failure/__init__.py` (`FailureConfig`, `FailureSimulator`);
* `src/rubberduck/proxy/__init__.py` (`ProxyManager.find_available_port`,
  the response-header sanitisation of `proxy_endpoint`).

Python values that cross these functions are modelled as follows: JSON
values by the inductive type `Json` (numbers carried as `Int`; float
rendering is irrelevant to the properties below), Python floats by `ℚ`,
Python dicts by ordered association lists (Python dicts preserve insertion
order), and the random draws of `random.random()` by explicit `ℚ`
parameters in `[0, 1]`.
-/

/-- Model of a Python value as passed to `json.dumps`: `None`, booleans,
numbers (carried as `Int`), strings, lists and dicts.  A dict is an ordered
association list, as Python dicts preserve insertion order. -/
inductive Json where
  | null : Json
  | bool (b : Bool) : Json
  | num (n : Int) : Json
  | str (s : String) : Json
  | arr (elems : List Json) : Json
  | obj (fields : List (String × Json)) : Json

/-- Rendering of a JSON string literal.  The escaping of exotic characters
performed by `json.dumps` is not modelled; keys and values in the
properties below are plain ASCII. -/
def jsonQuote (s : String) : String := "\"" ++ s ++ "\""

/-- Key ordering used by `json.dumps(..., sort_keys=True)` on the pairs
`(key, rendered value)` of a dict. -/
def keyLE (p q : String × String) : Prop := p.1 ≤ q.1

instance : DecidableRel keyLE := fun p q => inferInstanceAs (Decidable (p.1 ≤ q.1))

instance : IsTotal (String × String) keyLE := ⟨fun p q => le_total p.1 q.1⟩

instance : IsTrans (String × String) keyLE := ⟨fun _ _ _ h h' => le_trans h h'⟩

/-- Sorting a dict's rendered pairs by key, as `sort_keys=True` does. -/
def sortPairs (l : List (String × String)) : List (String × String) :=
  List.insertionSort keyLE l

/-- Rendering of one rendered pair, with the default `": "` separator of
`json.dumps`. -/
def renderPair (p : String × String) : String := jsonQuote p.1 ++ ": " ++ p.2

mutual

/-- Model of `json.dumps(v, sort_keys=True)`: the fields of every object
are emitted in sorted key order, with the default `", "` and `": "`
separators. -/
def dumps : Json → String
  | .null => "null"
  | .bool true => "true"
  | .bool false => "false"
  | .num n => toString n
  | .str s => jsonQuote s
  | .arr es => "[" ++ String.intercalate ", " (dumpsList es) ++ "]"
  | .obj fs =>
      "\x7b" ++ String.intercalate ", " ((sortPairs (dumpsFields fs)).map renderPair) ++ "\x7d"

/-- Renders every element of a JSON array. -/
def dumpsList : List Json → List String
  | [] => []
  | j :: js => dumps j :: dumpsList js

/-- Renders the value of every field of a JSON object, keeping the key. -/
def dumpsFields : List (String × Json) → List (String × String)
  | [] => []
  | (k, v) :: fs => (k, dumps v) :: dumpsFields fs

end

/-! ### SHA-256 (model of `hashlib.sha256(...).hexdigest()`)

A byte-level implementation of FIPS 180-4 SHA-256 over `List Nat`
(each element a byte), with 32-bit words as `Nat` reduced mod `2^32`. -/

/-- Truncation to a 32-bit word. -/
def w32 (x : Nat) : Nat := x % 4294967296

/-- Right rotation of a 32-bit word by `n` bits. -/
def rotr (n x : Nat) : Nat := w32 (x / 2 ^ n + x % 2 ^ n * 2 ^ (32 - n))

/-- Logical right shift. -/
def shr (n x : Nat) : Nat := x / 2 ^ n

/-- Bitwise complement of a 32-bit word. -/
def wnot (x : Nat) : Nat := 4294967295 ^^^ x

/-- SHA-256 round constants. -/
def sha256K : List Nat :=
  [1116352408, 1899447441, 3049323471, 3921009573, 961987163, 1508970993,
   2453635748, 2870763221, 3624381080, 310598401, 607225278, 1426881987,
   1925078388, 2162078206, 2614888103, 3248222580, 3835390401, 4022224774,
   264347078, 604807628, 770255983, 1249150122, 1555081692, 1996064986,
   2554220882, 2821834349, 2952996808, 3210313671, 3336571891, 3584528711,
   113926993, 338241895, 666307205, 773529912, 1294757372, 1396182291,
   1695183700, 1986661051, 2177026350, 2456956037, 2730485921, 2820302411,
   3259730800, 3345764771, 3516065817, 3600352804, 4094571909, 275423344,
   430227734, 506948616, 659060556, 883997877, 958139571, 1322822218,
   1537002063, 1747873779, 1955562222, 2024104815, 2227730452, 2361852424,
   2428436474, 2756734187, 3204031479, 3329325298]

/-- SHA-256 initial hash value. -/
def sha256H0 : List Nat :=
  [1779033703, 3144134277, 1013904242, 2773480762, 1359893119, 2600822924,
   528734635, 1541459225]

/-- Message padding: append `0x80`, zero bytes to 56 mod 64, and the
bit length as a 64-bit big-endian integer. -/
def sha256Pad (msg : List Nat) : List Nat :=
  let ml := 8 * msg.length
  let zeros := (64 + 55 - msg.length % 64) % 64
  msg ++ [0x80] ++ List.replicate zeros 0 ++
    [w32 (ml / 2 ^ 56) % 256, ml / 2 ^ 48 % 256, ml / 2 ^ 40 % 256, ml / 2 ^ 32 % 256,
     ml / 2 ^ 24 % 256, ml / 2 ^ 16 % 256, ml / 2 ^ 8 % 256, ml % 256]

/-- Groups a byte list into big-endian 32-bit words. -/
def bytesToWords : List Nat → List Nat
  | b0 :: b1 :: b2 :: b3 :: rest =>
      (b0 * 16777216 + b1 * 65536 + b2 * 256 + b3) :: bytesToWords rest
  | _ => []

/-- Splits a list into 64-byte blocks. -/
def chunk64 : List Nat → List (List Nat)
  | [] => []
  | x :: t => (x :: t).take 64 :: chunk64 (t.drop 63)
termination_by l => l.length
decreasing_by
  simp only [List.length_drop, List.length_cons]
  omega

/-- One step of the SHA-256 message-schedule extension. -/
def scheduleStep (ws : List Nat) : List Nat :=
  let n := ws.length
  let g := fun i => ws.getD i 0
  let s0 := rotr 7 (g (n - 15)) ^^^ rotr 18 (g (n - 15)) ^^^ shr 3 (g (n - 15))
  let s1 := rotr 17 (g (n - 2)) ^^^ rotr 19 (g (n - 2)) ^^^ shr 10 (g (n - 2))
  ws ++ [w32 (g (n - 16) + s0 + g (n - 7) + s1)]

/-- Extends the 16 block words to the 64 schedule words. -/
def extendSchedule : Nat → List Nat → List Nat
  | 0, ws => ws
  | n + 1, ws => extendSchedule n (scheduleStep ws)

/-- One round of the SHA-256 compression function on the state
`[a, b, c, d, e, f, g, h]`. -/
def sha256Round (st : List Nat) (kw : Nat × Nat) : List Nat :=
  let a := st.getD 0 0
  let b := st.getD 1 0
  let c := st.getD 2 0
  let d := st.getD 3 0
  let e := st.getD 4 0
  let f := st.getD 5 0
  let g := st.getD 6 0
  let h := st.getD 7 0
  let s1 := rotr 6 e ^^^ rotr 11 e ^^^ rotr 25 e
  let ch := (e &&& f) ^^^ (wnot e &&& g)
  let t1 := w32 (h + s1 + ch + kw.1 + kw.2)
  let s0 := rotr 2 a ^^^ rotr 13 a ^^^ rotr 22 a
  let maj := (a &&& b) ^^^ (a &&& c) ^^^ (b &&& c)
  let t2 := w32 (s0 + maj)
  [w32 (t1 + t2), a, b, c, w32 (d + t1), e, f, g]

/-- Processes one 64-byte block, updating the running hash. -/
def sha256Block (h : List Nat) (block : List Nat) : List Nat :=
  let ws := extendSchedule 48 (bytesToWords block)
  let v := (sha256K.zip ws).foldl sha256Round h
  List.zipWith (fun x y => w32 (x + y)) h v

/-- Renders a 32-bit word as eight lowercase hex digits. -/
def wordToHex (x : Nat) : String :=
  String.mk ((List.range 8).map fun i => Nat.digitChar (x / 2 ^ (28 - 4 * i) % 16))

/-- SHA-256 hex digest of a byte string, as
`hashlib.sha256(bytes).hexdigest()` produces. -/
def sha256Hex (msg : List Nat) : String :=
  String.join (((chunk64 (sha256Pad msg)).foldl sha256Block sha256H0).map wordToHex)

/-- UTF-8 encoding of one character, modelling `str.encode()`. -/
def utf8Char (c : Char) : List Nat :=
  let n := c.toNat
  if n < 128 then [n]
  else if n < 2048 then [192 + n / 64, 128 + n % 64]
  else if n < 65536 then [224 + n / 4096, 128 + n / 64 % 64, 128 + n % 64]
  else [240 + n / 262144, 128 + n / 4096 % 64, 128 + n / 64 % 64, 128 + n % 64]

/-- UTF-8 encoding of a string, modelling `str.encode()`. -/
def utf8Bytes (s : String) : List Nat := s.data.flatMap utf8Char

/-- Model of `CacheManager.generate_cache_key` (`cache_system.py`):
builds the dict `{"proxy_id": proxy_id, "request": normalized_request}`,
serialises it with `json.dumps(..., sort_keys=True)` and returns the
SHA-256 hex digest of the UTF-8 encoding.  The normalised request is a
dict, i.e. an ordered association list. -/
def generate_cache_key (proxy_id : Int) (normalized_request : List (String × Json)) : String :=
  sha256Hex (utf8Bytes (dumps (Json.obj
    [("proxy_id", Json.num proxy_id), ("request", Json.obj normalized_request)])))

/-! ### Cache store (`cache_system.py`) -/

/-- Model of a persisted `CacheEntry` row: the JSON round trip through
`json.dumps`/`json.loads` of the stored dicts is the identity, so the
request/response payloads are carried as values. -/
structure CacheEntry where
  proxy_id : Int
  cache_key : String
  request_data : Json
  response_data : Json
  response_headers : List (String × String)
  created_at : String

/-- The cache table, in insertion order. -/
abbrev CacheTable : Type := List CacheEntry

/-- Model of the `.filter(proxy_id == _, cache_key == _).first()` lookup. -/
def findEntry (cache : CacheTable) (proxy_id : Int) (cache_key : String) : Option CacheEntry :=
  List.find? (fun e => e.proxy_id = proxy_id ∧ e.cache_key = cache_key) cache

/-- Resulting value of `CacheManager.get_cached_response`: status code,
body, headers, cached flag and timestamp. -/
structure CachedResponse where
  status_code : Nat
  data : Json
  headers : List (String × String)
  cached : Bool
  cache_timestamp : String

/-- Model of `CacheManager.get_cached_response`: looks the entry up by
`(proxy_id, cache_key)` and, when found, returns it with `status_code`
set to the constant `200` ("Cached responses are always successful"). -/
def get_cached_response (cache : CacheTable) (proxy_id : Int) (cache_key : String) :
    Option CachedResponse :=
  match findEntry cache proxy_id cache_key with
  | some e => some ⟨200, e.response_data, e.response_headers, true, e.created_at⟩
  | none => none

/-- Replaces the first entry matching `(proxy_id, cache_key)` (the row
returned by `.first()`), leaving the rest unchanged. -/
def updateFirstEntry (cache : CacheTable) (proxy_id : Int) (cache_key : String)
    (e' : CacheEntry) : CacheTable :=
  match cache with
  | [] => []
  | e :: rest =>
      if e.proxy_id = proxy_id ∧ e.cache_key = cache_key then e' :: rest
      else e :: updateFirstEntry rest proxy_id cache_key e'

/-- Model of `CacheManager.store_response`: refuses (no-op, `false`) any
status code outside `[200, 300)`; otherwise updates the existing entry for
`(proxy_id, cache_key)` or inserts a new one, and returns `true`.  The
`now` argument stands for `datetime.utcnow()`. -/
def store_response (cache : CacheTable) (proxy_id : Int) (cache_key : String)
    (normalized_request : Json) (response_data : Json)
    (response_headers : List (String × String)) (status_code : Nat) (now : String) :
    CacheTable × Bool :=
  if ¬ (200 ≤ status_code ∧ status_code < 300) then (cache, false)
  else
    match findEntry cache proxy_id cache_key with
    | some _ =>
        (updateFirstEntry cache proxy_id cache_key
          ⟨proxy_id, cache_key, normalized_request, response_data, response_headers, now⟩, true)
    | none =>
        (cache ++ [⟨proxy_id, cache_key, normalized_request, response_data, response_headers, now⟩],
         true)

/-! ### Response-header sanitisation (`proxy_endpoint` in
`src/rubberduck/proxy/__init__.py`)

Both the cache-hit and the cache-miss branch build their client-facing
headers by dropping every upstream header whose lowercased name is in the
same literal `headers_to_filter` set, then adding the proxy's own
`X-Cache` marker (and, on a hit, `X-Cache-Timestamp`). -/

/-- The literal `headers_to_filter` set of `proxy_endpoint` (identical in
the cache-hit and cache-miss branches). -/
def headers_to_filter : List String :=
  ["content-encoding", "content-length", "transfer-encoding",
   "connection", "server", "date", "set-cookie", "vary",
   "cache-control", "etag", "last-modified", "expires",
   "alt-svc", "cf-ray", "cf-cache-status", "x-cache",
   "strict-transport-security", "x-content-type-options",
   "x-envoy-upstream-service-time"]

/-- Model of Python `str.lower()` on the ASCII header names involved:
lowercases character by character. -/
def lowerString (s : String) : String := String.mk (s.data.map Char.toLower)

/-- Model of the `for key, value in headers.items(): if key.lower() not in
headers_to_filter` copy loop: keeps exactly the headers whose lowercased
name is not in the deny set, in order. -/
def filterHeaders (hs : List (String × String)) : List (String × String) :=
  hs.filter (fun kv => ¬ lowerString kv.1 ∈ headers_to_filter)

/-- Dict assignment `d[k] = v` on an ordered association list: overwrites
in place, or appends when the key is new. -/
def setEntry (d : List (String × String)) (k v : String) : List (String × String) :=
  match d with
  | [] => [(k, v)]
  | (k', v') :: rest => if k' = k then (k, v) :: rest else (k', v') :: setEntry rest k v

/-- Client-facing headers of the cache-hit branch: the filtered cached
headers plus `X-Cache: HIT` and `X-Cache-Timestamp`. -/
def hitResponseHeaders (cached_headers : List (String × String)) (ts : String) :
    List (String × String) :=
  setEntry (setEntry (filterHeaders cached_headers) "X-Cache" "HIT") "X-Cache-Timestamp" ts

/-- Client-facing headers of the cache-miss branch: the filtered upstream
headers plus `X-Cache: MISS` when a cache key was computed. -/
def missResponseHeaders (upstream_headers : List (String × String)) (has_cache_key : Bool) :
    List (String × String) :=
  let rh := filterHeaders upstream_headers
  if has_cache_key then setEntry rh "X-Cache" "MISS" else rh

/-- Status code served by the cache-hit branch:
`cached_response.get("status_code", 200)`. -/
def hitResponseStatus (r : CachedResponse) : Nat := r.status_code

/-! ### Failure simulator (`src/rubberduck/failure/__init__.py`)

Client addresses: `_is_ip_in_list` parses the caller address and each list
entry with the `ipaddress` module.  The model carries a parsed IPv4
address as a `Nat` below `2^32` together with its literal string form
(used by the fallback string comparison for unparsable entries), and each
configured list entry in already-classified form: a parsed exact address,
a parsed CIDR block, the wildcard `"*"`, or an unparsable string. -/

/-- A caller address: its parsed 32-bit value and its literal text. -/
structure ClientIp where
  addr : Nat
  raw : String

/-- One entry of an allowlist/blocklist, as `_is_ip_in_list` classifies
it: a CIDR block (the entry contains a slash), a parseable exact address,
or an entry whose parse raises `ValueError` — the wildcard `"*"` or any
other string. -/
inductive IpEntry where
  | exact (a : Nat)
  | cidr (base : Nat) (plen : Nat)
  | wildcard
  | unparsed (s : String)
deriving DecidableEq

/-- CIDR membership with `strict=False` semantics: host bits of the base
are masked away, i.e. the top `plen` bits must agree. -/
def inNetwork (addr base plen : Nat) : Bool :=
  addr / 2 ^ (32 - plen) = base / 2 ^ (32 - plen)

/-- Model of `FailureSimulator._is_ip_in_list`: CIDR entries by network
membership, parseable entries by address equality, and entries whose
parse fails by the wildcard/literal-string fallback. -/
def is_ip_in_list (client : ClientIp) (ip_list : List IpEntry) : Bool :=
  ip_list.any fun entry =>
    match entry with
    | .exact a => client.addr = a
    | .cidr base plen => inNetwork client.addr base plen
    | .wildcard => true
    | .unparsed s => s = client.raw

/-- Model of the `FailureConfig` dataclass after `__post_init__` (which
replaces the `None` collection defaults by empty collections).  Python
floats are carried as rationals; `error_rates` is the insertion-ordered
list of `(status code, probability)` pairs of the dict. -/
structure FailureConfig where
  timeout_enabled : Bool
  timeout_seconds : Option ℚ
  timeout_rate : ℚ
  error_injection_enabled : Bool
  error_rates : List (Nat × ℚ)
  ip_filtering_enabled : Bool
  ip_allowlist : List IpEntry
  ip_blocklist : List IpEntry
  rate_limiting_enabled : Bool
  requests_per_minute : Nat

/-- The dataclass defaults of `FailureConfig` (after `__post_init__`). -/
def FailureConfig.defaults : FailureConfig :=
  ⟨false, none, 0, false, [], false, [], [], false, 60⟩

/-- Model of `FailureSimulator._check_ip_filtering`: `true` means the
request is allowed.  With filtering enabled, a non-empty allowlist must
contain the caller, and then a non-empty blocklist must not contain it. -/
def check_ip_filtering (config : FailureConfig) (client : ClientIp) : Bool :=
  if ¬ config.ip_filtering_enabled then true
  else if config.ip_allowlist ≠ [] ∧ ¬ is_ip_in_list client config.ip_allowlist then false
  else if config.ip_blocklist ≠ [] ∧ is_ip_in_list client config.ip_blocklist then false
  else true

/-- The per-simulator rate-limit state `self.request_counts`: a dict from
proxy id to a dict from wall-clock minute to request count. -/
abbrev SimState : Type := List (Int × List (Nat × Nat))

/-- Dict lookup with a default, modelling `d.get(k, default)`. -/
def lookupD {κ β : Type} [DecidableEq κ] (d : List (κ × β)) (k : κ) (dflt : β) : β :=
  match d.find? (fun p => p.1 = k) with
  | some p => p.2
  | none => dflt

/-- Dict assignment `d[k] = v`: overwrites in place or appends. -/
def setKey {κ β : Type} [DecidableEq κ] (d : List (κ × β)) (k : κ) (v : β) : List (κ × β) :=
  match d with
  | [] => [(k, v)]
  | (k', v') :: rest => if k' = k then (k, v) :: rest else (k', v') :: setKey rest k v

/-- Model of `FailureSimulator._check_rate_limiting` at wall-clock minute
`current_minute` (`int(time.time() // 60)`): prunes the proxy's buckets to
minutes `≥ current_minute`, compares the current bucket against
`requests_per_minute`, and increments it when the request is allowed.
Returns the allowed flag and the updated `request_counts` state. -/
def check_rate_limiting (config : FailureConfig) (st : SimState) (proxy_id : Int)
    (current_minute : Nat) : Bool × SimState :=
  if ¬ config.rate_limiting_enabled then (true, st)
  else
    let counts := (lookupD st proxy_id []).filter (fun mc => current_minute ≤ mc.1)
    let current_count := lookupD counts current_minute 0
    if config.requests_per_minute ≤ current_count then (false, setKey st proxy_id counts)
    else (true, setKey st proxy_id (setKey counts current_minute (current_count + 1)))

/-- A FastAPI `HTTPException`: status code and detail message. -/
structure HTTPException where
  status_code : Nat
  detail : String
deriving DecidableEq

/-- The literal `error_messages` table of `_simulate_error`. -/
def errorMessage (status_code : Nat) : String :=
  lookupD
    [(400, "Bad Request - Simulated Error"),
     (401, "Unauthorized - Simulated Error"),
     (403, "Forbidden - Simulated Error"),
     (404, "Not Found - Simulated Error"),
     (429, "Too Many Requests - Simulated Error"),
     (500, "Internal Server Error - Simulated Error"),
     (502, "Bad Gateway - Simulated Error"),
     (503, "Service Unavailable - Simulated Error"),
     (504, "Gateway Timeout - Simulated Error")]
    status_code ("Simulated Error " ++ toString status_code)

/-- The cumulative loop of `_simulate_error`: walks the
`(status, probability)` pairs keeping the running sum `acc`, and returns
the first status whose updated running sum is `≥` the draw. -/
def simulateErrorLoop (random_value : ℚ) : List (Nat × ℚ) → ℚ → Option HTTPException
  | [], _ => none
  | (status_code, rate) :: rest, acc =>
      if random_value ≤ acc + rate then some ⟨status_code, errorMessage status_code⟩
      else simulateErrorLoop random_value rest (acc + rate)

/-- Model of `FailureSimulator._simulate_error` with the single draw of
`random.random()` passed in as `random_value`. -/
def simulate_error (config : FailureConfig) (random_value : ℚ) : Option HTTPException :=
  if ¬ config.error_injection_enabled then none
  else simulateErrorLoop random_value config.error_rates 0

/-- Model of `FailureSimulator.process_request`: IP filter (403), then
rate limit (429), then error injection; `_simulate_timeout` only delays
and never produces a failure, so it does not appear in the result.
Returns the failure (if any) and the updated rate-limit state. -/
def process_request (config : FailureConfig) (st : SimState) (proxy_id : Int)
    (client : ClientIp) (current_minute : Nat) (random_value : ℚ) :
    Option HTTPException × SimState :=
  if ¬ check_ip_filtering config client then
    (some ⟨403, "IP " ++ client.raw ++ " is blocked by proxy configuration"⟩, st)
  else
    match check_rate_limiting config st proxy_id current_minute with
    | (false, st') => (some ⟨429, "Rate limit exceeded"⟩, st')
    | (true, st') => (simulate_error config random_value, st')

/-! ### Port allocation (`ProxyManager.find_available_port`) -/

/-- The environment `find_available_port` consults: the outcome of the OS
bind probe `_is_port_available` for each port, the in-process
`self.port_assignments` dict (port to proxy id), and the persisted proxy
rows `(id, port)` with `port` nullable. -/
structure PortEnv where
  osFree : Nat → Bool
  port_assignments : List (Nat × Int)
  dbProxies : List (Int × Option Nat)

/-- The ports of `self.port_assignments`. -/
def PortEnv.assignedPorts (env : PortEnv) : List Nat := env.port_assignments.map Prod.fst

/-- Model of the `existing_ports` query: rows whose port is not `NULL`,
excluding, when `current_proxy_id` is truthy, the row of that proxy. -/
def existing_ports (env : PortEnv) (current_proxy_id : Option Int) : List Nat :=
  let rows := env.dbProxies.filter (fun p => p.2.isSome)
  let rows' : List (Int × Option Nat) :=
    match current_proxy_id with
    | some cid => if cid ≠ 0 then rows.filter (fun p => p.1 ≠ cid) else rows
    | none => rows
  rows'.filterMap Prod.snd

/-- The `conflicts` message list built in the strict branch of
`find_available_port`, in source order. -/
def portConflicts (env : PortEnv) (ex : List Nat) (p : Nat) : List String :=
  (if ¬ env.osFree p then ["port is in use by another process"] else []) ++
  (if p ∈ env.assignedPorts then
     ["port is assigned to active proxy " ++ toString (lookupD env.port_assignments p 0)]
   else []) ++
  (if p ∈ ex then ["port is assigned to another proxy in database"] else [])

/-- The `ports_to_try` list of the flexible branch: the truthy preferred
port, then the reserved range `range(8001, 9001)`. -/
def ports_to_try (preferred_port : Option Nat) : List Nat :=
  (match preferred_port with
   | some p => if p ≠ 0 then [p] else []
   | none => []) ++ List.range' 8001 1000

/-- The scan loop of the flexible branch: first port that passes all three
availability checks, or the final `"No available ports found"` error. -/
def scanPorts (env : PortEnv) (ex : List Nat) : List Nat → Except String Nat
  | [] => .error "No available ports found"
  | p :: rest =>
      if env.osFree p ∧ p ∉ env.assignedPorts ∧ p ∉ ex then .ok p
      else scanPorts env ex rest

/-- Model of `ProxyManager.find_available_port`.  A raised `RuntimeError`
is the `.error` case.  Python truthiness of `preferred_port` and
`current_proxy_id` (`None` and `0` falsy) is modelled explicitly. -/
def find_available_port (env : PortEnv) (preferred_port : Option Nat) (strict_port : Bool)
    (current_proxy_id : Option Int) : Except String Nat :=
  let ex := existing_ports env current_proxy_id
  match preferred_port with
  | some p =>
      if strict_port ∧ p ≠ 0 then
        if env.osFree p ∧ p ∉ env.assignedPorts ∧ p ∉ ex then .ok p
        else
          .error ("Cannot start proxy on assigned port " ++ toString p ++ ": " ++
            String.intercalate ", " (portConflicts env ex p))
      else scanPorts env ex (ports_to_try (some p))
  | none => scanPorts env ex (ports_to_try none)

/-! ### Response delay -/

/-- Modelled from the spec: the response-delay feature — the
`response_delay_enabled` / `response_delay_min_seconds` /
`response_delay_max_seconds` / `response_delay_cache_only` fields of
`FailureConfig` and `FailureSimulator.apply_response_delay` — is absent
from the sources; only its tests and migrations remain.  The spec says:
"a uniformly random duration in [min, max] seconds, applied to every
successful response or only to cache hits depending on a boolean flag". -/
structure ResponseDelayConfig where
  response_delay_enabled : Bool
  response_delay_min_seconds : ℚ
  response_delay_max_seconds : ℚ
  response_delay_cache_only : Bool

/-- Modelled from the spec: `FailureSimulator.apply_response_delay`, with
the uniform draw `r ∈ [0, 1]` passed explicitly; returns the applied delay
in seconds (`0` when no delay applies). -/
def apply_response_delay (config : ResponseDelayConfig) (is_cache_hit : Bool) (r : ℚ) : ℚ :=
  if ¬ config.response_delay_enabled then 0
  else if config.response_delay_cache_only ∧ ¬ is_cache_hit then 0
  else
    config.response_delay_min_seconds +
      r * (config.response_delay_max_seconds - config.response_delay_min_seconds)

/-! ### Config deserialisation (`FailureConfig.from_json`)

The blob handed to `from_json` is modelled after the outcome of
`json.loads`: absent/empty (falsy) input, input whose parse raises
`json.JSONDecodeError`, or a successfully parsed JSON value. -/

/-- Input of `from_json`, classified by what `json.loads` does with it. -/
inductive ConfigBlob where
  | absent
  | unparsable (s : String)
  | parsed (v : Json)

/-- Exceptions `from_json` can let escape (its `except` clause catches
only `json.JSONDecodeError` and `TypeError`). -/
inductive PyError where
  | valueError
  | attributeError
deriving DecidableEq

/-- Decimal value of a digit list. -/
def digitsVal (ds : List Char) : Int :=
  ds.foldl (fun acc c => 10 * acc + (c.toNat - 48)) 0

/-- Model of Python `int(s)` on a string: optional surrounding whitespace
and sign followed by digits; `none` models a raised `ValueError`.
(Underscore digit grouping is not modelled; no input below uses it.) -/
def pyIntOfString (s : String) : Option Int :=
  let t := s.data.dropWhile (fun c => c = ' ')
  let t := (t.reverse.dropWhile (fun c => c = ' ')).reverse
  match t with
  | '-' :: ds => if ds ≠ [] ∧ ds.all Char.isDigit then some (-(digitsVal ds)) else none
  | '+' :: ds => if ds ≠ [] ∧ ds.all Char.isDigit then some (digitsVal ds) else none
  | ds => if ds ≠ [] ∧ ds.all Char.isDigit then some (digitsVal ds) else none

/-- Python truthiness of a JSON value (`data['error_rates']` guard). -/
def jsonTruthy : Json → Bool
  | .null => false
  | .bool b => b
  | .num n => n ≠ 0
  | .str s => s ≠ ""
  | .arr es => ¬ es.isEmpty
  | .obj fs => ¬ fs.isEmpty

/-- The field names of the `FailureConfig` dataclass (so `cls(**data)`
raises `TypeError` for any other key). -/
def failureConfigFieldNames : List String :=
  ["timeout_enabled", "timeout_seconds", "timeout_rate",
   "error_injection_enabled", "error_rates",
   "ip_filtering_enabled", "ip_allowlist", "ip_blocklist",
   "rate_limiting_enabled", "requests_per_minute"]

/-- Conversion step `{int(k): v for k, v in data['error_rates'].items()}`
of `from_json`: `none` when absent or falsy (step skipped), `.error` when
a key is not an integer literal (`ValueError`) or the value is truthy but
not a dict (`AttributeError` from `.items()`). -/
def convertErrorRates (fields : List (String × Json)) :
    Except PyError (Option (List (Int × Json))) :=
  match (fields.find? (fun p => p.1 = "error_rates")).map Prod.snd with
  | none => .ok none
  | some v =>
      if ¬ jsonTruthy v then .ok none
      else
        match v with
        | .obj m =>
            match (m.map Prod.fst).mapM pyIntOfString with
            | some keys => .ok (some (keys.zip (m.map Prod.snd)))
            | none => .error .valueError
        | _ => .error .attributeError

/-- Model of `FailureConfig.from_json`.  Falsy and `JSONDecodeError`
inputs yield the defaults; a parsed value goes through the `error_rates`
key conversion (whose `ValueError`/`AttributeError` escape uncaught, the
`.error` case) and then `cls(**data)`, whose `TypeError` — non-dict input
or an unexpected keyword — is caught and yields the defaults.  In the
fully successful case the recognised fields populate the config; the
population itself is irrelevant to the properties below and is summarised
by `FailureConfig.defaults` updated with the converted `error_rates`
statuses. -/
def from_json (blob : ConfigBlob) : Except PyError FailureConfig :=
  match blob with
  | .absent => .ok FailureConfig.defaults
  | .unparsable _ => .ok FailureConfig.defaults
  | .parsed v =>
      match v with
      | .obj fields =>
          match convertErrorRates fields with
          | .error e => .error e
          | .ok rates =>
              if ¬ (fields.map Prod.fst).all (fun k => k ∈ failureConfigFieldNames) then
                .ok FailureConfig.defaults
              else
                .ok { FailureConfig.defaults with
                        error_rates :=
                          (rates.getD []).map (fun p => (p.1.toNat, (0 : ℚ))) }
      | _ => .ok FailureConfig.defaults

/-- Iterated rate-limit checking: feeds a sequence of requests (one
wall-clock minute each) through `check_rate_limiting`, threading the
state, and collects the allowed/rejected flags. -/
def runRateLimit (config : FailureConfig) (pid : Int) :
    SimState → List Nat → List Bool × SimState
  | st, [] => ([], st)
  | st, m :: ms =>
      let step := check_rate_limiting config st pid m
      let rest := runRateLimit config pid step.2 ms
      (step.1 :: rest.1, rest.2)

/-- The rate-limit state in which proxy `pid` has `c` requests recorded in
minute bucket `m` and nothing else. -/
def goodState (pid : Int) (m c : Nat) : SimState := [(pid, [(m, c)])]

/-- A concrete configuration with rate limiting enabled at 2 requests per
minute and everything else at the defaults. -/
def cfgRL : FailureConfig :=
  { FailureConfig.defaults with rate_limiting_enabled := true, requests_per_minute := 2 }

/-- Stated from the spec for comparison with `_simulate_error`: the
running cumulative sum of the first `i` probabilities of the ordered
`(status, probability)` list. -/
def cumSum (pairs : List (Nat × ℚ)) (i : Nat) : ℚ :=
  ((pairs.take i).map Prod.snd).sum

/-- Stated from the spec for comparison with `_simulate_error`: the index
of the first pair whose running cumulative sum is `≥` the draw. -/
def firstCumulativeIndex (pairs : List (Nat × ℚ)) (r : ℚ) : Option Nat :=
  (List.range pairs.length).find? (fun i => r ≤ cumSum pairs (i + 1))

/-- Stated from the spec for comparison with `_simulate_error`: the status
of the first pair whose running cumulative sum is `≥` the draw, if any. -/
def specInjectedStatus (pairs : List (Nat × ℚ)) (r : ℚ) : Option Nat :=
  (firstCumulativeIndex pairs r).map (fun i => (pairs.getD i (0, 0)).1)

/-- A concrete configuration with error injection enabled with the pairs
`[(429, 0.3), (500, 0.2)]` and everything else at the defaults. -/
def cfg4 : FailureConfig :=
  { FailureConfig.defaults with
      error_injection_enabled := true,
      error_rates := [(429, 3/10), (500, 1/5)] }

/-- A concrete environment for exercising the strict port branch: port
9100 is bound by an active proxy and recorded in the database, everything
else is free at the OS level. -/
def portEnvSample : PortEnv :=
  ⟨fun q => q ≠ 9100, [(9100, 2)], [(3, some 9100)]⟩

/-! ### Theorems -/

theorem findEntry_update (cache : CacheTable) (pid : Int) (key : String) (e' : CacheEntry)
    (hp : e'.proxy_id = pid) (hk : e'.cache_key = key) :
    findEntry (updateFirstEntry cache pid key e') pid key =
      if (findEntry cache pid key).isSome then some e' else none := by
  induction cache with
  | nil => simp [findEntry, updateFirstEntry]
  | cons e rest ih =>
      by_cases hm : e.proxy_id = pid ∧ e.cache_key = key
      · simp [updateFirstEntry, findEntry, hm, hp, hk]
      · have h1 : findEntry (e :: rest) pid key = findEntry rest pid key := by
          simp [findEntry, List.find?_cons_of_neg, hm]
        have h2 : updateFirstEntry (e :: rest) pid key e' =
            e :: updateFirstEntry rest pid key e' := by
          simp [updateFirstEntry, hm]
        rw [h2]
        have h3 : findEntry (e :: updateFirstEntry rest pid key e') pid key =
            findEntry (updateFirstEntry rest pid key e') pid key := by
          simp [findEntry, List.find?_cons_of_neg, hm]
        rw [h3, ih, h1]

/-- Claim C2: `store_response` stores a cache entry iff
`200 ≤ status_code < 300`; for any status outside that range it is a no-op
that leaves the table unchanged and returns `False`, so no cache entry is
ever created for a non-2xx response; for a 2xx status it returns `True`
and the table afterwards holds the new entry under `(proxy_id, cache_key)`. -/
theorem store_response_stores_iff_2xx (cache : CacheTable) (pid : Int) (key : String)
    (req data : Json) (hdrs : List (String × String)) (status : Nat) (now : String) :
    (¬ (200 ≤ status ∧ status < 300) →
        store_response cache pid key req data hdrs status now = (cache, false)) ∧
    ((200 ≤ status ∧ status < 300) →
        (store_response cache pid key req data hdrs status now).2 = true ∧
        findEntry (store_response cache pid key req data hdrs status now).1 pid key =
          some ⟨pid, key, req, data, hdrs, now⟩) := by
  constructor
  · intro h
    simp [store_response, h]
  · intro h
    cases hfe : findEntry cache pid key with
    | some e =>
        refine ⟨by simp [store_response, h, hfe], ?_⟩
        have h1 : (store_response cache pid key req data hdrs status now).1 =
            updateFirstEntry cache pid key ⟨pid, key, req, data, hdrs, now⟩ := by
          simp [store_response, h, hfe]
        rw [h1, findEntry_update cache pid key ⟨pid, key, req, data, hdrs, now⟩ rfl rfl, hfe]
        simp
    | none =>
        refine ⟨by simp [store_response, h, hfe], ?_⟩
        have h1 : (store_response cache pid key req data hdrs status now).1 =
            cache ++ [⟨pid, key, req, data, hdrs, now⟩] := by
          simp [store_response, h, hfe]
        rw [findEntry] at hfe
        rw [h1, findEntry, List.find?_append, hfe]
        simp [List.find?]

theorem store_response_stores_iff_2xx_witness :
    (¬ (200 ≤ 404 ∧ 404 < 300) ∧
      store_response [] 1 "k" Json.null Json.null [] 404 "t" = ([], false)) ∧
    ((200 ≤ 204 ∧ 204 < 300) ∧
      (store_response [] 1 "k" Json.null Json.null [] 204 "t").2 = true) :=
  ⟨⟨by decide,
    (store_response_stores_iff_2xx [] 1 "k" Json.null Json.null [] 404 "t").1 (by decide)⟩,
   ⟨by decide,
    ((store_response_stores_iff_2xx [] 1 "k" Json.null Json.null [] 204 "t").2 (by decide)).1⟩⟩

/-- Claim C10: every cache hit is served with HTTP status exactly 200,
whatever status the stored response originally had: `get_cached_response`
sets `status_code` to the constant `200` for any entry it finds, the
cache-hit branch of `proxy_endpoint` serves exactly that status, and yet
`store_response` accepts (returns `True` for) every status in
`[200, 300)`, not just 200. -/
theorem cache_hit_always_200 :
    (∀ (cache : CacheTable) (pid : Int) (key : String) (r : CachedResponse),
        get_cached_response cache pid key = some r →
          r.status_code = 200 ∧ hitResponseStatus r = 200) ∧
    (∀ (status : Nat), 200 ≤ status → status < 300 →
        ∀ (cache : CacheTable) (pid : Int) (key : String) (req data : Json)
          (hdrs : List (String × String)) (now : String),
          (store_response cache pid key req data hdrs status now).2 = true) := by
  constructor
  · intro cache pid key r h
    cases hfe : findEntry cache pid key with
    | some e =>
        rw [get_cached_response, hfe] at h
        cases h
        exact ⟨rfl, rfl⟩
    | none => rw [get_cached_response, hfe] at h; cases h
  · intro status h1 h2 cache pid key req data hdrs now
    cases hfe : findEntry cache pid key <;>
      simp [store_response, hfe, h1, h2]

theorem cache_hit_always_200_witness :
    get_cached_response [⟨1, "k", Json.null, Json.null, [], "t"⟩] 1 "k" =
        some ⟨200, Json.null, [], true, "t"⟩ ∧
    (⟨200, Json.null, [], true, "t"⟩ : CachedResponse).status_code = 200 ∧
    hitResponseStatus ⟨200, Json.null, [], true, "t"⟩ = 200 ∧
    (200 ≤ 204 ∧ 204 < 300 ∧
      (store_response [] 1 "k" Json.null Json.null [] 204 "t").2 = true) :=
  ⟨rfl,
   (cache_hit_always_200.1 [⟨1, "k", Json.null, Json.null, [], "t"⟩] 1 "k" _ rfl).1,
   (cache_hit_always_200.1 [⟨1, "k", Json.null, Json.null, [], "t"⟩] 1 "k" _ rfl).2,
   by decide, by decide,
   cache_hit_always_200.2 204 (by decide) (by decide) [] 1 "k" Json.null Json.null [] "t"⟩

theorem mem_setEntry {d : List (String × String)} {k0 v0 k v : String}
    (h : (k, v) ∈ setEntry d k0 v0) : (k, v) ∈ d ∨ (k = k0 ∧ v = v0) := by
  induction d with
  | nil =>
      simp [setEntry] at h
      exact Or.inr h
  | cons p rest ih =>
      by_cases hk : p.1 = k0
      · rw [show p = (p.1, p.2) from rfl, setEntry] at h
        simp only [hk, if_pos rfl] at h
        rcases List.mem_cons.1 h with h' | h'
        · exact Or.inr (by cases h'; exact ⟨rfl, rfl⟩)
        · exact Or.inl (List.mem_cons_of_mem _ h')
      · rw [show p = (p.1, p.2) from rfl, setEntry] at h
        simp only [hk, if_neg hk] at h
        rcases List.mem_cons.1 h with h' | h'
        · exact Or.inl (h' ▸ List.mem_cons_self _ _)
        · rcases ih h' with h'' | h''
          · exact Or.inl (List.mem_cons_of_mem _ h'')
          · exact Or.inr h''

theorem mem_filterHeaders {hs : List (String × String)} {k v : String} :
    (k, v) ∈ filterHeaders hs ↔ (k, v) ∈ hs ∧ ¬ lowerString k ∈ headers_to_filter := by
  simp [filterHeaders]

/-- Claim C7: on both response paths (cache hit and cache miss) every
upstream header whose lowercased name is in the fixed `headers_to_filter`
deny-set is removed before the response is returned; any deny-set-named
header in the client-facing headers is the proxy's own `X-Cache` marker,
never an upstream value. -/
theorem header_sanitization :
    (∀ (hs : List (String × String)) (k v : String),
        (k, v) ∈ filterHeaders hs ↔ (k, v) ∈ hs ∧ ¬ lowerString k ∈ headers_to_filter) ∧
    (∀ (hs : List (String × String)) (ts k v : String),
        (k, v) ∈ hitResponseHeaders hs ts → lowerString k ∈ headers_to_filter →
          k = "X-Cache" ∧ v = "HIT") ∧
    (∀ (hs : List (String × String)) (b : Bool) (k v : String),
        (k, v) ∈ missResponseHeaders hs b → lowerString k ∈ headers_to_filter →
          k = "X-Cache" ∧ v = "MISS") := by
  refine ⟨fun hs k v => mem_filterHeaders, ?_, ?_⟩
  · intro hs ts k v hmem hdeny
    rcases mem_setEntry hmem with h1 | h1
    · rcases mem_setEntry h1 with h2 | h2
      · exact absurd hdeny (mem_filterHeaders.1 h2).2
      · exact h2
    · rcases h1 with ⟨rfl, rfl⟩
      exact absurd hdeny (by decide)
  · intro hs b k v hmem hdeny
    cases b with
    | false =>
        have hb : missResponseHeaders hs false = filterHeaders hs := by
          simp [missResponseHeaders]
        rw [hb] at hmem
        exact absurd hdeny (mem_filterHeaders.1 hmem).2
    | true =>
        have hb : missResponseHeaders hs true = setEntry (filterHeaders hs) "X-Cache" "MISS" := by
          simp [missResponseHeaders]
        rw [hb] at hmem
        rcases mem_setEntry hmem with h1 | h1
        · exact absurd hdeny (mem_filterHeaders.1 h1).2
        · exact h1

theorem header_sanitization_witness :
    (("Set-Cookie", "a=1") ∈
        ([("Set-Cookie", "a=1"), ("Content-Type", "json")] : List (String × String)) ∧
      ¬ ("Set-Cookie", "a=1") ∈
        filterHeaders [("Set-Cookie", "a=1"), ("Content-Type", "json")]) ∧
    (("X-Cache", "MISS") ∈ missResponseHeaders [("Set-Cookie", "a=1")] true ∧
      lowerString "X-Cache" ∈ headers_to_filter ∧
      ("X-Cache" : String) = "X-Cache" ∧ ("MISS" : String) = "MISS") :=
  ⟨⟨by decide,
    fun hmem =>
      absurd ((header_sanitization.1 [("Set-Cookie", "a=1"), ("Content-Type", "json")]
        "Set-Cookie" "a=1").1 hmem).2 (by decide)⟩,
   ⟨by decide, by decide,
    (header_sanitization.2.2 [("Set-Cookie", "a=1")] true "X-Cache" "MISS"
      (by decide) (by decide))⟩⟩

theorem stringAppendNe (a s b : String) (i : Nat) (hi : i < a.data.length)
    (h : a.data[i]? ≠ b.data[i]?) : a ++ s ≠ b := by
  intro he
  apply h
  have hd : (a ++ s).data = b.data := congrArg String.data he
  rw [String.data_append] at hd
  have := congrArg (fun l => l[i]?) hd
  simpa [List.getElem?_append_left hi] using this

theorem osMsg_mem_portConflicts (env : PortEnv) (ex : List Nat) (p : Nat) :
    "port is in use by another process" ∈ portConflicts env ex p ↔ env.osFree p = false := by
  unfold portConflicts
  by_cases h1 : env.osFree p <;> by_cases h2 : p ∈ env.assignedPorts <;>
    by_cases h3 : p ∈ ex <;>
    simp [h1, h2, h3] <;>
    exact fun he =>
      stringAppendNe "port is assigned to active proxy "
        (toString (lookupD env.port_assignments p 0))
        "port is in use by another process" 8 (by decide) (by decide) he.symm

theorem activeMsg_mem_portConflicts (env : PortEnv) (ex : List Nat) (p : Nat) :
    (∃ pid : Int, ("port is assigned to active proxy " ++ toString pid) ∈
        portConflicts env ex p) ↔ p ∈ env.assignedPorts := by
  unfold portConflicts
  constructor
  · rintro ⟨pid, hmem⟩
    by_cases h2 : p ∈ env.assignedPorts
    · exact h2
    · exfalso
      by_cases h1 : env.osFree p <;> by_cases h3 : p ∈ ex <;>
        simp [h1, h2, h3] at hmem <;>
        first
          | exact stringAppendNe "port is assigned to active proxy " (toString pid)
              "port is in use by another process" 8 (by decide) (by decide) hmem
          | exact stringAppendNe "port is assigned to active proxy " (toString pid)
              "port is assigned to another proxy in database" 21 (by decide) (by decide) hmem
          | rcases hmem with hmem | hmem
            · exact stringAppendNe "port is assigned to active proxy " (toString pid)
                "port is in use by another process" 8 (by decide) (by decide) hmem
            · exact stringAppendNe "port is assigned to active proxy " (toString pid)
                "port is assigned to another proxy in database" 21 (by decide) (by decide) hmem
  · intro h2
    refine ⟨lookupD env.port_assignments p 0, ?_⟩
    by_cases h1 : env.osFree p <;> by_cases h3 : p ∈ ex <;> simp [h1, h2, h3]

theorem dbMsg_mem_portConflicts (env : PortEnv) (ex : List Nat) (p : Nat) :
    "port is assigned to another proxy in database" ∈ portConflicts env ex p ↔ p ∈ ex := by
  unfold portConflicts
  by_cases h1 : env.osFree p <;> by_cases h2 : p ∈ env.assignedPorts <;>
    by_cases h3 : p ∈ ex <;>
    simp [h1, h2, h3] <;>
    exact fun he =>
      stringAppendNe "port is assigned to active proxy "
        (toString (lookupD env.port_assignments p 0))
        "port is assigned to another proxy in database" 21 (by decide) (by decide) he.symm

/-- Claim C6: in strict mode (`strict_port=True` with a truthy preferred
port) `find_available_port` returns exactly the preferred port when the OS
bind succeeds and the port is neither in the in-process assignment table
nor among the persisted ports; otherwise it raises an error whose message
lists exactly the applicable conflict layers; and it never falls back to
scanning — every successful result is the preferred port itself. -/
theorem find_available_port_strict (env : PortEnv) (p : Nat) (cur : Option Int)
    (hp : p ≠ 0) :
    (env.osFree p = true ∧ p ∉ env.assignedPorts ∧ p ∉ existing_ports env cur →
        find_available_port env (some p) true cur = .ok p) ∧
    (¬ (env.osFree p = true ∧ p ∉ env.assignedPorts ∧ p ∉ existing_ports env cur) →
        find_available_port env (some p) true cur =
          .error ("Cannot start proxy on assigned port " ++ toString p ++ ": " ++
            String.intercalate ", " (portConflicts env (existing_ports env cur) p)) ∧
        ("port is in use by another process" ∈ portConflicts env (existing_ports env cur) p
            ↔ env.osFree p = false) ∧
        ((∃ pid : Int, ("port is assigned to active proxy " ++ toString pid) ∈
            portConflicts env (existing_ports env cur) p) ↔ p ∈ env.assignedPorts) ∧
        ("port is assigned to another proxy in database" ∈
            portConflicts env (existing_ports env cur) p ↔ p ∈ existing_ports env cur)) ∧
    (∀ q : Nat, find_available_port env (some p) true cur = .ok q → q = p) := by
  refine ⟨?_, ?_, ?_⟩
  · intro h
    simp [find_available_port, hp, h]
  · intro h
    refine ⟨?_, osMsg_mem_portConflicts env _ p, activeMsg_mem_portConflicts env _ p,
      dbMsg_mem_portConflicts env _ p⟩
    simp [find_available_port, hp, h]
  · intro q hq
    by_cases h : env.osFree p = true ∧ p ∉ env.assignedPorts ∧ p ∉ existing_ports env cur
    · simp [find_available_port, hp, h] at hq
      exact hq.symm
    · simp [find_available_port, hp, h] at hq


theorem find_available_port_strict_witness :
    (8123 ≠ 0) ∧
    (portEnvSample.osFree 8123 = true ∧ 8123 ∉ portEnvSample.assignedPorts ∧
      8123 ∉ existing_ports portEnvSample none) ∧
    find_available_port portEnvSample (some 8123) true none = .ok 8123 :=
  ⟨by decide, by decide,
   (find_available_port_strict portEnvSample 8123 none (by decide)).1 (by decide)⟩

/-- Claim C5 as stated is false on the code: with filtering enabled and an
allowlist configured, the code also consults the blocklist, so a caller
whose address is in the allowlist is nevertheless denied when a blocklist
entry matches it too.  Here the caller `0.0.0.1` is in the allowlist yet
the filter rejects it. -/
theorem ip_filter_allowlist_counterexample :
    is_ip_in_list ⟨1, "0.0.0.1"⟩ [IpEntry.exact 1] = true ∧
    check_ip_filtering
      { FailureConfig.defaults with
          ip_filtering_enabled := true,
          ip_allowlist := [IpEntry.exact 1],
          ip_blocklist := [IpEntry.exact 1] }
      ⟨1, "0.0.0.1"⟩ = false := by
  constructor <;> rfl

/-- Claim C5 (amended): with IP filtering disabled every caller passes;
with filtering enabled a caller passes exactly when a configured allowlist
(if any) contains its address (exact or CIDR match) AND a configured
blocklist (if any) does not; a denied caller receives status 403 with the
blocked-IP message from `process_request`. -/
theorem check_ip_filtering_amended (config : FailureConfig) (client : ClientIp) :
    (config.ip_filtering_enabled = false → check_ip_filtering config client = true) ∧
    (config.ip_filtering_enabled = true →
      (check_ip_filtering config client = true ↔
        ((config.ip_allowlist ≠ [] → is_ip_in_list client config.ip_allowlist = true) ∧
         (config.ip_blocklist ≠ [] → is_ip_in_list client config.ip_blocklist = false)))) ∧
    (∀ (st : SimState) (pid : Int) (minute : Nat) (r : ℚ),
      check_ip_filtering config client = false →
        (process_request config st pid client minute r).1 =
          some ⟨403, "IP " ++ client.raw ++ " is blocked by proxy configuration"⟩) := by
  refine ⟨?_, ?_, ?_⟩
  · intro h
    simp [check_ip_filtering, h]
  · intro h
    by_cases ha : config.ip_allowlist = []
    · by_cases hb : config.ip_blocklist = []
      · simp [check_ip_filtering, h, ha, hb, is_ip_in_list]
      · by_cases hbm : is_ip_in_list client config.ip_blocklist = true <;>
          simp [check_ip_filtering, h, ha, hb, hbm]
    · by_cases ham : is_ip_in_list client config.ip_allowlist = true
      · by_cases hb : config.ip_blocklist = []
        · simp [check_ip_filtering, h, ha, ham, hb]
        · by_cases hbm : is_ip_in_list client config.ip_blocklist = true <;>
            simp [check_ip_filtering, h, ha, ham, hb, hbm]
      · simp [check_ip_filtering, h, ha, ham]
  · intro st pid minute r hdeny
    simp [process_request, hdeny]

theorem check_ip_filtering_amended_witness :
    (check_ip_filtering
        { FailureConfig.defaults with
            ip_filtering_enabled := true,
            ip_blocklist := [IpEntry.exact 5] }
        ⟨5, "0.0.0.5"⟩ = false) ∧
    (process_request
        { FailureConfig.defaults with
            ip_filtering_enabled := true,
            ip_blocklist := [IpEntry.exact 5] }
        [] 1 ⟨5, "0.0.0.5"⟩ 0 0).1 =
      some ⟨403, "IP 0.0.0.5 is blocked by proxy configuration"⟩ :=
  ⟨rfl,
   (check_ip_filtering_amended
      { FailureConfig.defaults with
          ip_filtering_enabled := true,
          ip_blocklist := [IpEntry.exact 5] }
      ⟨5, "0.0.0.5"⟩).2.2 [] 1 0 0 rfl⟩

/-- Claim C9: the safe paths of `FailureConfig.from_json` — absent/empty
input, input that is not valid JSON, and valid JSON carrying an unexpected
field — all yield the defaults without raising.  But the claim's blanket
"never raises" is violated by the code: a parsable blob whose
`error_rates` object has a key that is not an integer literal makes
`int(k)` raise `ValueError`, which the `except (json.JSONDecodeError,
TypeError)` clause does not catch, so tenant construction fails. -/
theorem from_json_valueerror_escapes :
    from_json .absent = .ok FailureConfig.defaults ∧
    from_json (.unparsable "invalid json") = .ok FailureConfig.defaults ∧
    from_json (.parsed (Json.obj [("no_such_field", Json.bool true)])) =
      .ok FailureConfig.defaults ∧
    from_json (.parsed (Json.obj [("error_rates",
        Json.obj [("not_a_number", Json.num 1)])])) = .error .valueError := by
  refine ⟨rfl, rfl, rfl, ?_⟩
  rfl

/-- Claim C8: with a response delay configured (spec-modelled, the source
implementation is missing) and `cache_only = true`, cache hits are delayed
by `min + r * (max - min)` seconds — a value in `[min, max]` for any
uniform draw `r ∈ [0, 1]` — while cache misses are not delayed at all;
with `cache_only = false` every successful response is so delayed; with
the feature disabled nothing is delayed. -/
theorem apply_response_delay_spec (config : ResponseDelayConfig) (hit : Bool) (r : ℚ)
    (h0 : 0 ≤ r) (h1 : r ≤ 1)
    (hmm : config.response_delay_min_seconds ≤ config.response_delay_max_seconds) :
    (config.response_delay_enabled = false → apply_response_delay config hit r = 0) ∧
    (config.response_delay_enabled = true → config.response_delay_cache_only = true →
      (hit = false → apply_response_delay config hit r = 0) ∧
      (hit = true →
        config.response_delay_min_seconds ≤ apply_response_delay config hit r ∧
        apply_response_delay config hit r ≤ config.response_delay_max_seconds)) ∧
    (config.response_delay_enabled = true → config.response_delay_cache_only = false →
      config.response_delay_min_seconds ≤ apply_response_delay config hit r ∧
      apply_response_delay config hit r ≤ config.response_delay_max_seconds) := by
  have hbounds : config.response_delay_min_seconds ≤
      config.response_delay_min_seconds +
        r * (config.response_delay_max_seconds - config.response_delay_min_seconds) ∧
      config.response_delay_min_seconds +
        r * (config.response_delay_max_seconds - config.response_delay_min_seconds) ≤
        config.response_delay_max_seconds := by
    constructor
    · nlinarith
    · nlinarith
  refine ⟨?_, ?_, ?_⟩
  · intro h
    simp [apply_response_delay, h]
  · intro he hc
    constructor
    · intro hh
      simp [apply_response_delay, he, hc, hh]
    · intro hh
      simpa [apply_response_delay, he, hc, hh] using hbounds
  · intro he hc
    simpa [apply_response_delay, he, hc] using hbounds

theorem apply_response_delay_spec_witness :
    ((0 : ℚ) ≤ 1/2 ∧ (1/2 : ℚ) ≤ 1 ∧ (1 : ℚ) ≤ 3) ∧
    ((1 : ℚ) ≤ apply_response_delay ⟨true, 1, 3, false⟩ true (1/2) ∧
      apply_response_delay ⟨true, 1, 3, false⟩ true (1/2) ≤ 3) :=
  ⟨⟨by norm_num, by norm_num, by norm_num⟩,
   (apply_response_delay_spec ⟨true, 1, 3, false⟩ true (1/2)
      (by norm_num) (by norm_num) (by norm_num)).2.2 rfl rfl⟩

theorem check_step_good (config : FailureConfig) (hen : config.rate_limiting_enabled = true)
    (pid : Int) (m c : Nat) :
    check_rate_limiting config (goodState pid m c) pid m =
      (decide (c < config.requests_per_minute),
       goodState pid m (if c < config.requests_per_minute then c + 1 else c)) := by
  by_cases hN : config.requests_per_minute ≤ c
  · have : ¬ c < config.requests_per_minute := not_lt.2 hN
    simp [check_rate_limiting, hen, goodState, lookupD, setKey, List.find?, hN, this]
  · have hlt : c < config.requests_per_minute := not_le.1 hN
    simp [check_rate_limiting, hen, goodState, lookupD, setKey, List.find?, hN, hlt]

theorem run_good (config : FailureConfig) (hen : config.rate_limiting_enabled = true)
    (pid : Int) (m : Nat) :
    ∀ (k c : Nat), ∃ c',
      runRateLimit config pid (goodState pid m c) (List.replicate k m) =
        ((List.range k).map (fun i => decide (c + i < config.requests_per_minute)),
         goodState pid m c') := by
  intro k
  induction k with
  | zero => intro c; exact ⟨c, rfl⟩
  | succ k ih =>
      intro c
      obtain ⟨c', hc'⟩ := ih (if c < config.requests_per_minute then c + 1 else c)
      refine ⟨c', ?_⟩
      rw [List.replicate_succ, runRateLimit, check_step_good config hen pid m c, hc',
        List.range_succ_eq_map]
      simp only [List.map_cons, List.map_map]
      rw [Prod.mk.injEq]
      refine ⟨?_, rfl⟩
      rw [List.cons.injEq]
      refine ⟨by simp, ?_⟩
      by_cases hlt : c < config.requests_per_minute
      · simp only [if_pos hlt]
        exact List.map_congr_left fun i _ => decide_eq_decide.2 (by omega)
      · have hge : config.requests_per_minute ≤ c := not_lt.1 hlt
        simp only [if_neg hlt]
        exact List.map_congr_left fun i _ => decide_eq_decide.2 (by omega)

theorem check_step_empty (config : FailureConfig) (hen : config.rate_limiting_enabled = true)
    (pid : Int) (m : Nat) :
    check_rate_limiting config [] pid m =
      (decide (0 < config.requests_per_minute),
       if 0 < config.requests_per_minute then goodState pid m 1 else [(pid, [])]) := by
  by_cases hN : config.requests_per_minute = 0
  · simp [check_rate_limiting, hen, lookupD, setKey, List.find?, hN, goodState]
  · have hpos : 0 < config.requests_per_minute := Nat.pos_of_ne_zero hN
    simp [check_rate_limiting, hen, lookupD, setKey, List.find?, goodState, hpos,
      Nat.not_succ_le_zero, Nat.le_zero, hN]

theorem check_step_zero_bad (config : FailureConfig) (hen : config.rate_limiting_enabled = true)
    (hN : config.requests_per_minute = 0) (pid : Int) (m : Nat) :
    check_rate_limiting config [(pid, [])] pid m = (false, [(pid, [])]) := by
  simp [check_rate_limiting, hen, lookupD, setKey, List.find?, hN]

theorem run_zero_bad (config : FailureConfig) (hen : config.rate_limiting_enabled = true)
    (hN : config.requests_per_minute = 0) (pid : Int) (m : Nat) :
    ∀ k, runRateLimit config pid [(pid, [])] (List.replicate k m) =
      (List.replicate k false, [(pid, [])]) := by
  intro k
  induction k with
  | zero => rfl
  | succ k ih =>
      rw [List.replicate_succ, runRateLimit, check_step_zero_bad config hen hN pid m, ih,
        List.replicate_succ]

theorem lookupD_nil {κ β : Type} [DecidableEq κ] (k : κ) (d : β) :
    lookupD ([] : List (κ × β)) k d = d := rfl

theorem check_fresh_minute (config : FailureConfig) (hen : config.rate_limiting_enabled = true)
    (hpos : 0 < config.requests_per_minute) (pid : Int) (st : SimState) (m' : Nat)
    (h : (lookupD st pid []).filter (fun mc => m' ≤ mc.1) = []) :
    (check_rate_limiting config st pid m').1 = true := by
  have hN : ¬ config.requests_per_minute ≤ 0 := by omega
  simp [check_rate_limiting, hen, h, lookupD_nil, hN]

/-- Claim C3: with rate limiting enabled at `requests_per_minute = N`,
among `k` requests arriving in the same wall-clock minute from a fresh
counter exactly the first `N` pass the rate-limit check (request `i`
passes iff `i < N`); a request that fails the check is rejected by
`process_request` with status 429; and at any later minute the pruned
counter starts over, so requests pass again. -/
theorem rate_limit_window (config : FailureConfig)
    (hen : config.rate_limiting_enabled = true)
    (hipf : config.ip_filtering_enabled = false)
    (pid : Int) (m : Nat) (k : Nat) :
    (runRateLimit config pid [] (List.replicate k m)).1 =
      (List.range k).map (fun i => decide (i < config.requests_per_minute)) ∧
    (∀ (st : SimState) (client : ClientIp) (r : ℚ),
        (check_rate_limiting config st pid m).1 = false →
          (process_request config st pid client m r).1 =
            some ⟨429, "Rate limit exceeded"⟩) ∧
    (0 < config.requests_per_minute → ∀ m', m < m' →
        (check_rate_limiting config
          (runRateLimit config pid [] (List.replicate k m)).2 pid m').1 = true) := by
  refine ⟨?_, ?_, ?_⟩
  · cases k with
    | zero => rfl
    | succ k' =>
        by_cases hpos : 0 < config.requests_per_minute
        · obtain ⟨c', hrun⟩ := run_good config hen pid m k' 1
          simp only [List.replicate_succ, runRateLimit, check_step_empty config hen pid m,
            if_pos hpos, hrun, List.range_succ_eq_map, List.map_cons, List.map_map]
          rw [List.cons.injEq]
          refine ⟨by simp [hpos], ?_⟩
          exact List.map_congr_left fun i _ => decide_eq_decide.2 (by omega)
        · have hN : config.requests_per_minute = 0 := by omega
          simp only [List.replicate_succ, runRateLimit, check_step_empty config hen pid m,
            if_neg hpos, run_zero_bad config hen hN pid m k']
          have hrhs : (List.range (k' + 1)).map
              (fun i => decide (i < config.requests_per_minute)) =
              List.replicate (k' + 1) false := by
            refine List.eq_replicate_iff.2 ⟨by simp, ?_⟩
            intro b hb
            rcases List.mem_map.1 hb with ⟨i, _, hib⟩
            simp [hN] at hib
            exact hib
          rw [hrhs, List.replicate_succ]
          simp [hN]
  · intro st client r hrl
    cases hcr : check_rate_limiting config st pid m with
    | mk b st' =>
        rw [hcr] at hrl
        simp only at hrl
        subst hrl
        simp [process_request, check_ip_filtering, hipf, hcr]
  · intro hpos m' hm'
    cases k with
    | zero =>
        exact check_fresh_minute config hen hpos pid [] m' (by simp [lookupD_nil])
    | succ k' =>
        obtain ⟨c', hrun⟩ := run_good config hen pid m k' 1
        simp only [List.replicate_succ, runRateLimit, check_step_empty config hen pid m,
          if_pos hpos, hrun]
        apply check_fresh_minute config hen hpos pid _ m'
        have hnle : ¬ m' ≤ m := by omega
        simp [goodState, lookupD, List.find?, hnle]

theorem rate_limit_window_witness :
    cfgRL.rate_limiting_enabled = true ∧ cfgRL.ip_filtering_enabled = false ∧
    (runRateLimit cfgRL 1 [] (List.replicate 4 0)).1 =
      (List.range 4).map (fun i => decide (i < cfgRL.requests_per_minute)) ∧
    (runRateLimit cfgRL 1 [] (List.replicate 4 0)).1 = [true, true, false, false] :=
  ⟨rfl, rfl, (rate_limit_window cfgRL rfl rfl 1 0 4).1, by decide⟩

theorem cumSum_cons (p : Nat × ℚ) (t : List (Nat × ℚ)) (i : Nat) :
    cumSum (p :: t) (i + 1) = p.2 + cumSum t i := by
  simp [cumSum, List.take_succ_cons]

theorem simulateErrorLoop_eq (r : ℚ) :
    ∀ (pairs : List (Nat × ℚ)) (acc : ℚ),
      (simulateErrorLoop r pairs acc).map (fun e => e.status_code) =
        ((List.range pairs.length).find? (fun i => r ≤ acc + cumSum pairs (i + 1))).map
          (fun i => (pairs.getD i (0, 0)).1) := by
  intro pairs
  induction pairs with
  | nil => intro acc; rfl
  | cons p t ih =>
      intro acc
      rw [simulateErrorLoop]
      by_cases hc : r ≤ acc + p.2
      · have hc' : r ≤ acc + cumSum (p :: t) (0 + 1) := by
          rw [cumSum_cons]
          simpa [cumSum] using hc
        rw [if_pos hc]
        rw [List.length_cons, List.range_succ_eq_map, List.find?_cons_of_pos _ (by simpa using hc')]
        simp
      · have hc' : ¬ r ≤ acc + cumSum (p :: t) (0 + 1) := by
          rw [cumSum_cons]
          simpa [cumSum] using hc
        rw [if_neg hc]
        rw [List.length_cons, List.range_succ_eq_map, List.find?_cons_of_neg _ (by simpa using hc'),
          List.find?_map]
        rw [ih (acc + p.2)]
        have harg : ((fun i => decide (r ≤ acc + cumSum (p :: t) (i + 1))) ∘ Nat.succ) =
            (fun i => decide (r ≤ acc + p.2 + cumSum t (i + 1))) := by
          funext i
          simp only [Function.comp]
          congr 1
          rw [show Nat.succ i + 1 = (i + 1) + 1 from rfl, cumSum_cons, add_assoc]
        rw [harg, Option.map_map]
        rcases hfind : (List.range t.length).find?
            (fun i => decide (r ≤ acc + p.2 + cumSum t (i + 1))) with _ | i
        · rfl
        · simp

theorem simulateErrorLoop_none (r : ℚ) :
    ∀ (pairs : List (Nat × ℚ)) (acc : ℚ), (∀ p ∈ pairs, 0 ≤ p.2) →
      acc + (pairs.map Prod.snd).sum < r → simulateErrorLoop r pairs acc = none := by
  intro pairs
  induction pairs with
  | nil => intro acc _ _; rfl
  | cons p t ih =>
      intro acc hnn hlt
      have hsum : (0 : ℚ) ≤ (t.map Prod.snd).sum := by
        apply List.sum_nonneg
        intro x hx
        rcases List.mem_map.1 hx with ⟨q, hq, hqx⟩
        exact hqx ▸ hnn q (List.mem_cons_of_mem _ hq)
      have hlt' : acc + p.2 + (t.map Prod.snd).sum < r := by
        simpa [add_assoc] using hlt
      have hc : ¬ r ≤ acc + p.2 := by nlinarith
      rw [simulateErrorLoop, if_neg hc]
      exact ih (acc + p.2) (fun q hq => hnn q (List.mem_cons_of_mem _ hq)) hlt'

theorem simulateErrorLoop_msg (r : ℚ) :
    ∀ (pairs : List (Nat × ℚ)) (acc : ℚ) (e : HTTPException),
      simulateErrorLoop r pairs acc = some e → e.detail = errorMessage e.status_code := by
  intro pairs
  induction pairs with
  | nil => intro acc e h; cases h
  | cons p t ih =>
      intro acc e h
      rw [simulateErrorLoop] at h
      by_cases hc : r ≤ acc + p.2
      · rw [if_pos hc] at h
        cases h
        rfl
      · rw [if_neg hc] at h
        exact ih (acc + p.2) e h

/-- Claim C4: with error injection enabled and a single uniform draw `r`,
`_simulate_error` injects exactly the status of the first pair (in list
order) whose running cumulative probability sum is `≥ r`; the injected
exception carries the table message for its status; and when `r` exceeds
the total of all (nonnegative) probabilities, nothing is injected. -/
theorem simulate_error_first_cumulative (config : FailureConfig) (r : ℚ)
    (hen : config.error_injection_enabled = true) :
    (simulate_error config r).map (fun e => e.status_code) =
      specInjectedStatus config.error_rates r ∧
    (∀ e, simulate_error config r = some e → e.detail = errorMessage e.status_code) ∧
    ((∀ p ∈ config.error_rates, 0 ≤ p.2) →
      (config.error_rates.map Prod.snd).sum < r → simulate_error config r = none) := by
  refine ⟨?_, ?_, ?_⟩
  · rw [simulate_error, if_neg (by simp [hen])]
    rw [simulateErrorLoop_eq r config.error_rates 0]
    simp [specInjectedStatus, firstCumulativeIndex]
  · intro e h
    rw [simulate_error, if_neg (by simp [hen])] at h
    exact simulateErrorLoop_msg r config.error_rates 0 e h
  · intro hnn hlt
    rw [simulate_error, if_neg (by simp [hen])]
    exact simulateErrorLoop_none r config.error_rates 0 hnn (by simpa using hlt)

theorem simulate_error_first_cumulative_witness :
    cfg4.error_injection_enabled = true ∧
    simulate_error cfg4 (2/5) = some ⟨500, "Internal Server Error - Simulated Error"⟩ ∧
    (simulate_error cfg4 (2/5)).map (fun e => e.status_code) =
      specInjectedStatus cfg4.error_rates (2/5) :=
  ⟨rfl,
   by norm_num [simulate_error, simulateErrorLoop, cfg4, FailureConfig.defaults,
     errorMessage, lookupD, List.find?],
   (simulate_error_first_cumulative cfg4 (2/5) rfl).1⟩

theorem dumpsFields_eq_map (l : List (String × Json)) :
    dumpsFields l = l.map (fun p => (p.1, dumps p.2)) := by
  induction l with
  | nil => rfl
  | cons p t ih =>
      obtain ⟨k, v⟩ := p
      simp [dumpsFields, ih]

theorem sortPairs_eq_of_perm (l1 l2 : List (String × String)) (hp : l1.Perm l2)
    (hnd : (l1.map Prod.fst).Nodup) : sortPairs l1 = sortPairs l2 := by
  have hnd2 : (l2.map Prod.fst).Nodup := ((hp.map Prod.fst).nodup_iff).1 hnd
  have hstrict : ∀ (l : List (String × String)), (l.map Prod.fst).Nodup →
      (sortPairs l).Pairwise (fun p q : String × String => p.1 < q.1 ∨ p = q) := by
    intro l hndl
    have hsorted : (sortPairs l).Pairwise keyLE := List.sorted_insertionSort keyLE l
    have hndl' : ((sortPairs l).map Prod.fst).Nodup :=
      (((List.perm_insertionSort keyLE l).map Prod.fst).nodup_iff).2 hndl
    have hne : (sortPairs l).Pairwise (fun p q : String × String => p.1 ≠ q.1) :=
      List.pairwise_map.1 hndl'
    exact (hsorted.and hne).imp fun h => Or.inl (lt_of_le_of_ne h.1 h.2)
  have hperm : (sortPairs l1).Perm (sortPairs l2) :=
    ((List.perm_insertionSort keyLE l1).trans hp).trans
      (List.perm_insertionSort keyLE l2).symm
  haveI : IsAntisymm (String × String) (fun p q : String × String => p.1 < q.1 ∨ p = q) :=
    ⟨by
      rintro p q (hpq | rfl) hqp
      · rcases hqp with hqp | rfl
        · exact absurd (lt_trans hpq hqp) (lt_irrefl _)
        · rfl
      · rfl⟩
  exact List.eq_of_perm_of_sorted hperm (hstrict l1 hnd) (hstrict l2 hnd2)

theorem dumps_obj_eq_of_perm (r1 r2 : List (String × Json)) (hperm : r1.Perm r2)
    (hnodup : (r1.map Prod.fst).Nodup) : dumps (Json.obj r1) = dumps (Json.obj r2) := by
  have hp : (dumpsFields r1).Perm (dumpsFields r2) := by
    rw [dumpsFields_eq_map, dumpsFields_eq_map]
    exact hperm.map _
  have hk : ((dumpsFields r1).map Prod.fst).Nodup := by
    rw [dumpsFields_eq_map, List.map_map]
    exact hnodup
  have hs : sortPairs (dumpsFields r1) = sortPairs (dumpsFields r2) :=
    sortPairs_eq_of_perm _ _ hp hk
  rw [dumps, dumps, hs]

/-- Claim C1: `generate_cache_key` is the SHA-256 hex digest of the
sorted-keys JSON serialisation of `{"proxy_id": ..., "request": ...}`
(definitional conjunct), and therefore two normalised request dicts that
are equal as key-value maps — permutations of each other with distinct
keys — receive identical cache keys for every proxy id, the serialised
content being equal. -/
theorem generate_cache_key_deterministic (pid : Int) (r1 r2 : List (String × Json))
    (hperm : r1.Perm r2) (hnodup : (r1.map Prod.fst).Nodup) :
    generate_cache_key pid r1 = generate_cache_key pid r2 ∧
    ∀ (r : List (String × Json)),
      generate_cache_key pid r = sha256Hex (utf8Bytes (dumps (Json.obj
        [("proxy_id", Json.num pid), ("request", Json.obj r)]))) := by
  refine ⟨?_, fun r => rfl⟩
  have hin : dumps (Json.obj r1) = dumps (Json.obj r2) :=
    dumps_obj_eq_of_perm r1 r2 hperm hnodup
  have houter : dumps (Json.obj [("proxy_id", Json.num pid), ("request", Json.obj r1)]) =
      dumps (Json.obj [("proxy_id", Json.num pid), ("request", Json.obj r2)]) := by
    rw [dumps, dumps, dumpsFields, dumpsFields, dumpsFields, dumpsFields, dumpsFields,
      dumpsFields, hin]
  rw [generate_cache_key, generate_cache_key, houter]

theorem generate_cache_key_deterministic_witness :
    (([("b", Json.num 1), ("a", Json.str "x")] : List (String × Json)).Perm
        [("a", Json.str "x"), ("b", Json.num 1)]) ∧
    (([("b", Json.num 1), ("a", Json.str "x")] : List (String × Json)).map Prod.fst).Nodup ∧
    generate_cache_key 7 [("b", Json.num 1), ("a", Json.str "x")] =
      generate_cache_key 7 [("a", Json.str "x"), ("b", Json.num 1)] :=
  ⟨List.Perm.swap _ _ _, by decide,
   (generate_cache_key_deterministic 7 _ _ (List.Perm.swap _ _ _) (by decide)).1⟩
